import Mathlib

set_option linter.unusedVariables false

/-!
Verification of the coroutine library in `src/coroutine.h` (namespace `co`).

The header contains the full Generator/Call/YieldValue templates, the sleep
unit conversions, the constructor default arguments and all member
initializers.  The out-of-line member functions (context switching, `Wait`,
`Nanosleep`, `Resume`, the scheduler loop, the BitSet id allocator) are
declared in the header but their bodies live in a translation unit that is
not part of `src/`; where a claim depends on them, the corresponding
definition below is modelled from the spec and marked as such in its doc
comment.
-/

namespace Co

/-! ## Generator / Call protocol

Shallow embedding of `Generator<T>::YieldValue` (src/coroutine.h lines
323-330) and `Coroutine::Call` (lines 332-342).

The generator's private field `T *result_ = nullptr` (line 241) is a pointer
into the caller's stack frame.  We model the pointed-to caller-frame local
`T result` as an explicit value `slot : T` threaded through the functions,
and the pointer itself by the boolean field `result_` (`true` iff the
pointer is non-null, i.e. bound to the caller's local).  The field `caller_`
(line 208) is likewise modelled as a non-null flag.  The generator body is
abstracted as the list of values it will pass to `YieldValue`, in order;
this is the only way a generator body interacts with the protocol. -/

structure GenCore (T : Type) where
  /-- Remaining arguments the body will pass to `YieldValue`. -/
  pending : List T
  /-- Whether `result_` (line 241) is non-null. -/
  result_ : Bool
  /-- Whether `caller_` (line 208) is non-null. -/
  caller_ : Bool
deriving DecidableEq, Repr

/-- `Generator<T>::YieldValue(const T &value)`, src/coroutine.h lines 323-330:
`if (result_ != nullptr) { *result_ = value; } YieldNonTemplate();`.
Takes the current contents `slot` of the caller-frame local that `result_`
may point at and returns the (possibly updated) contents together with
`true` recording that `YieldNonTemplate()` runs unconditionally, i.e. the
generator yields control whether or not the copy happened. -/
def yieldValue {T : Type} (g : GenCore T) (slot : T) (value : T) : T × Bool :=
  (if g.result_ then value else slot, true)

/-- Modelled from the spec: `CallNonTemplate` (declared line 183, body not in
`src/`) swaps context into the generator, which runs until its next
`YieldValue` or until its body returns, and then control is back at the
caller.  Running the body to its next `YieldValue` consumes the head of
`pending`; an exhausted body returns without touching the slot. -/
def runToNextYield {T : Type} (g : GenCore T) (slot : T) : GenCore T × T :=
  match g.pending with
  | [] => (g, slot)
  | v :: rest => ({ g with pending := rest }, (yieldValue g slot v).1)

/-- The generator record as it stands while `CallNonTemplate` runs: `Call`
has already executed `callee.caller_ = this;` (line 336) and
`callee.result_ = &result;` (line 337). -/
def callDuring {T : Type} (g : GenCore T) : GenCore T :=
  { g with caller_ := true, result_ := true }

/-- `Coroutine::Call(Generator<T> &callee)`, src/coroutine.h lines 332-342:
```
T result;                  -- caller-frame local, default constructed: d
callee.caller_ = this;
callee.result_ = &result;  -- callDuring
CallNonTemplate(callee);   -- runToNextYield
callee.result_ = nullptr;
return result;
```
`d` stands for the default-constructed value of `T`.  Returns the value of
`result` at `return` together with the generator record after the call. -/
def Call {T : Type} (g : GenCore T) (d : T) : T × GenCore T :=
  let p := runToNextYield (callDuring g) d
  (p.2, { p.1 with result_ := false })

/-- A freshly constructed generator whose body will yield `vs` in order:
`result_` and `caller_` start null (lines 208, 241). -/
def initGen {T : Type} (vs : List T) : GenCore T :=
  { pending := vs, result_ := false, caller_ := false }

/-- The results of `n` successive `Call`s driving the same generator. -/
def callResults {T : Type} (g : GenCore T) (d : T) : Nat → List T
  | 0 => []
  | n + 1 =>
      let p := Call g d
      p.1 :: callResults p.2 d n

/-! ## Wait return values

`Coroutine::Wait` (declared lines 110-117), `EndOfWait` (line 175) and
`AddTimeout` (line 176) have their bodies outside `src/`. -/

/-- Modelled from the spec: `AddTimeout(timeout_ns)` creates a timer fd for
the duration of the wait when `timeout_ns > 0` and returns it; with no
timeout there is no timer fd and the sentinel `-1` is returned.  `fresh` is
the fd the kernel would hand out. -/
def AddTimeout (timeout_ns : Nat) (fresh : Int) : Int :=
  if 0 < timeout_ns then fresh else -1

/-- Modelled from the spec: `EndOfWait(timer_fd)` is the shared post-wait
bookkeeping: if the fd that triggered resumption is the timer, the result is
-1; otherwise it is the triggering fd itself. -/
def EndOfWait (timer_fd : Int) (triggering_fd : Int) : Int :=
  if triggering_fd = timer_fd then -1 else triggering_fd

/-- Modelled from the spec: `Wait(fds, timeout_ns)` (vector variant, line
117) suspends on the user fds plus the timer fd from `AddTimeout`, and when
some fd `trig` of that set triggers resumption it returns
`EndOfWait(timer_fd, trig)`.  `fresh` is the timer fd used if a timer is
created.  The resumption only happens for a `trig` in the awaited set
(`fds` plus the timer fd); that environment fact is a hypothesis of the
theorems below, so `fds` does not constrain the result here. -/
def Wait (fds : List Int) (timeout_ns : Nat) (fresh trig : Int) : Int :=
  EndOfWait (AddTimeout timeout_ns fresh) trig

/-- Modelled from the spec: the single-fd variant `Wait(fd, mask, timeout)`
(line 110) waits on the one-element set, and the pollfd variant (line 113)
on its fd; both share the vector semantics. -/
def Wait1 (fd : Int) (timeout_ns : Nat) (fresh trig : Int) : Int :=
  Wait [fd] timeout_ns fresh trig

/-! ## Sleeping functions

`Millisleep` and `Sleep` are defined inline in the header (src/coroutine.h
lines 123-128); `Nanosleep` (line 122) has its body outside `src/`.  A
suspend request is identified by the user-fd set it installs and the
nanosecond timeout; the unit conversions compute in `uint64_t`, so the
products are taken mod 2^64. -/

structure WaitRequest where
  fds : List Int
  timeout_ns : Nat
deriving DecidableEq, Repr

/-- The suspend request a vector `Wait(fds, timeout_ns)` installs. -/
def waitRequest (fds : List Int) (timeout_ns : Nat) : WaitRequest :=
  { fds := fds, timeout_ns := timeout_ns }

/-- `uint64_t` wrap-around. -/
def u64 (n : Nat) : Nat := n % 2 ^ 64

/-- Modelled from the spec: `Nanosleep(ns)` (body not in `src/`) performs a
`Wait` with an empty user-fd set and timeout `ns`. -/
def nanosleepRequest (ns : Nat) : WaitRequest := waitRequest [] ns

/-- `Coroutine::Millisleep(msecs)`, src/coroutine.h lines 123-125:
`Nanosleep(static_cast<uint64_t>(msecs) * 1000000LL)`.  `msecs` is a
non-negative `time_t`; the product wraps in `uint64_t`. -/
def millisleepRequest (msecs : Nat) : WaitRequest :=
  nanosleepRequest (u64 (msecs * 1000000))

/-- `Coroutine::Sleep(secs)`, src/coroutine.h lines 126-128:
`Nanosleep(static_cast<uint64_t>(secs) * 1000000000LL)`. -/
def sleepRequest (secs : Nat) : WaitRequest :=
  nanosleepRequest (u64 (secs * 1000000000))

/-! ## Construction and last-tick accounting

`Coroutine::Coroutine` is declared with its default arguments at
src/coroutine.h lines 87-89; `Generator<T>::Generator` (lines 225-233)
forwards to it with `/*autostart=*/false` and no autostart parameter of its
own.  The member initializers `last_tick_ = 0` (line 210),
`first_resume_ = true` (line 204) and `caller_ = nullptr` (line 208) are in
the header; the constructor body and `Resume` are not in `src/`. -/

/-- `constexpr size_t kCoDefaultStackSize = 32 * 1024;` (line 68). -/
def kCoDefaultStackSize : Nat := 32 * 1024

/-- `Coroutine::State` (lines 161-168). -/
inductive CoState where
  | kCoNew
  | kCoReady
  | kCoRunning
  | kCoYielded
  | kCoWaiting
  | kCoDead
deriving DecidableEq, Repr

/-- One coroutine object, restricted to the fields the claims mention. -/
structure CoObj where
  state : CoState
  autostart : Bool
  stack_size : Nat
  last_tick : Nat
  first_resume : Bool
deriving DecidableEq, Repr

/-- Construction of a `Coroutine`.  Field values from the header member
initializers; the state transition is modelled from the spec: construction
leaves the coroutine `New`, and if `autostart` it transitions `New -> Ready`
(the constructor body is not in `src/`). -/
def construct (autostart : Bool) (stack_size : Nat) : CoObj :=
  { state := if autostart then CoState.kCoReady else CoState.kCoNew
    autostart := autostart
    stack_size := stack_size
    last_tick := 0
    first_resume := true }

/-- A `Coroutine` built with the declaration's default arguments
`autostart = true`, `stack_size = kCoDefaultStackSize` (lines 88-89). -/
def coroutineDefault : CoObj := construct true kCoDefaultStackSize

/-- A `Generator<T>` built with stack size `ss`: the base-class constructor
call at lines 228-232 passes `/*autostart=*/false` unconditionally. -/
def generatorNew (ss : Nat) : CoObj := construct false ss

/-- A `Generator<T>` built with the declaration's default arguments
(line 226: `stack_size = kCoDefaultStackSize`). -/
def generatorDefault : CoObj := generatorNew kCoDefaultStackSize

/-- `LastTick()`, src/coroutine.h line 144: `return last_tick_;`. -/
def LastTick (c : CoObj) : Nat := c.last_tick

/-- Modelled from the spec: `Resume` (declared line 180, body not in `src/`)
is the only writer of `last_tick_`; each resume stamps the coroutine's
`last_tick` with the scheduler's current tick and makes it `Running`. -/
def Resume (tick : Nat) (c : CoObj) : CoObj :=
  { c with state := CoState.kCoRunning, last_tick := tick, first_resume := false }

/-- The operations on one coroutine that touch its lifecycle, modelled from
the spec's state machine (the bodies are not in `src/`); only `resume`
carries a scheduler tick. -/
inductive CoOp where
  | startOp
  | resumeOp (tick : Nat)
  | yieldOp
  | waitOp
  | exitOp
  | setNameOp
deriving DecidableEq, Repr

def CoOp.isResume : CoOp → Bool
  | CoOp.resumeOp _ => true
  | _ => false

/-- Modelled from the spec: effect of each operation on the coroutine's own
record.  `Start` is `New -> Ready` and idempotent otherwise; suspension
points leave `Running`; only `Resume` writes `last_tick_`. -/
def applyOp (c : CoObj) : CoOp → CoObj
  | CoOp.startOp =>
      if c.state = CoState.kCoNew then { c with state := CoState.kCoReady } else c
  | CoOp.resumeOp t => Resume t c
  | CoOp.yieldOp => { c with state := CoState.kCoYielded }
  | CoOp.waitOp => { c with state := CoState.kCoWaiting }
  | CoOp.exitOp => { c with state := CoState.kCoDead }
  | CoOp.setNameOp => c

def applyOps (c : CoObj) (ops : List CoOp) : CoObj := ops.foldl applyOp c

/-! ## Scheduler interleaving and mutual exclusion

`Resume`, `CallNonTemplate`, `YieldNonTemplate` and the scheduler loop have
their bodies outside `src/`; the transition system below is modelled from
the spec: the scheduler resumes one `Ready` coroutine at a time and only
while no coroutine is running (single-threaded, control is at the
scheduler's `yield_` context between resumes); every suspension point
leaves `Running`; `Call` and `YieldValue` transfer control directly from
the one running coroutine to a non-running one. -/

/-- The joint state: the `State` of every registered coroutine. -/
abbrev SchedState := List CoState

/-- Number of coroutines in state `kCoRunning`. -/
def runningCount : SchedState → Nat
  | [] => 0
  | c :: rest => (if c = CoState.kCoRunning then 1 else 0) + runningCount rest

/-- Modelled from the spec: one scheduler-visible transition. -/
inductive SchedStep : SchedState → SchedState → Prop where
  /-- `Start()`: `New -> Ready`. -/
  | start (s : SchedState) (i : Nat) :
      s.get? i = some CoState.kCoNew →
      SchedStep s (s.set i CoState.kCoReady)
  /-- A `Yielded` coroutine's event fd fires: `Yielded -> Ready`. -/
  | wakeYielded (s : SchedState) (i : Nat) :
      s.get? i = some CoState.kCoYielded →
      SchedStep s (s.set i CoState.kCoReady)
  /-- An awaited fd or the timer fires: `Waiting -> Ready`. -/
  | wakeWaiting (s : SchedState) (i : Nat) :
      s.get? i = some CoState.kCoWaiting →
      SchedStep s (s.set i CoState.kCoReady)
  /-- The scheduler resumes a chosen `Ready` coroutine; it only runs its
  loop while no coroutine is running. -/
  | resume (s : SchedState) (i : Nat) :
      s.get? i = some CoState.kCoReady →
      (∀ c ∈ s, c ≠ CoState.kCoRunning) →
      SchedStep s (s.set i CoState.kCoRunning)
  /-- `Yield()`: the running coroutine suspends. -/
  | yieldStep (s : SchedState) (i : Nat) :
      s.get? i = some CoState.kCoRunning →
      SchedStep s (s.set i CoState.kCoYielded)
  /-- `Wait(...)`: the running coroutine suspends. -/
  | waitStep (s : SchedState) (i : Nat) :
      s.get? i = some CoState.kCoRunning →
      SchedStep s (s.set i CoState.kCoWaiting)
  /-- Body return or `Exit()`: the running coroutine dies. -/
  | exitStep (s : SchedState) (i : Nat) :
      s.get? i = some CoState.kCoRunning →
      SchedStep s (s.set i CoState.kCoDead)
  /-- `Call`: the running caller `i` transfers control directly to the
  generator `j` (not running, not dead) and blocks until it yields. -/
  | callTransfer (s : SchedState) (i j : Nat) (st : CoState) :
      i ≠ j →
      s.get? i = some CoState.kCoRunning →
      s.get? j = some st →
      st ≠ CoState.kCoRunning →
      st ≠ CoState.kCoDead →
      SchedStep s ((s.set i CoState.kCoWaiting).set j CoState.kCoRunning)
  /-- `YieldValue`: the running generator `j` arms its event fd, becomes
  `Yielded`, and transfers control directly back to its caller `i`. -/
  | yieldValueTransfer (s : SchedState) (i j : Nat) (st : CoState) :
      i ≠ j →
      s.get? j = some CoState.kCoRunning →
      s.get? i = some st →
      st ≠ CoState.kCoRunning →
      SchedStep s ((s.set j CoState.kCoYielded).set i CoState.kCoRunning)

/-- States reachable from a fresh scheduler: every registered coroutine
starts in `kCoNew` (`state_` is set at construction). -/
inductive SchedReachable : SchedState → Prop where
  | init (n : Nat) : SchedReachable (List.replicate n CoState.kCoNew)
  | step {s s2 : SchedState} :
      SchedReachable s → SchedStep s s2 → SchedReachable s2

/-! ## The coroutine id allocator

`CoroutineScheduler::AllocateId` (declared line 299) and the `BitSet`
container (`bitset.h`) are outside `src/`; the allocator is modelled from
the spec: allocation scans for the lowest unset bit other than
`last_freed`, falls back to `last_freed` if it is the only free slot, and
grows on demand.  `last_freed_coroutine_id_ = -1U` (line 310) is the
initial no-hint sentinel. -/

/-- `-1U`: the initial value of `last_freed_coroutine_id_` (line 310). -/
def lastFreedSentinel : Nat := 2 ^ 32 - 1

structure IdAlloc where
  /-- `bits.get? i = some true` iff id `i` is allocated; the list length is
  the current capacity of the growable bit set. -/
  bits : List Bool
  /-- `last_freed_coroutine_id_`. -/
  lastFreed : Nat
deriving DecidableEq, Repr

/-- A fresh scheduler's id set: empty, hint at the sentinel. -/
def initIdAlloc : IdAlloc := { bits := [], lastFreed := lastFreedSentinel }

/-- Modelled from the spec: scan for the lowest unset bit whose index is not
`avoid`, indices starting at `base`. -/
def findFreeFrom : List Bool → Nat → Nat → Option Nat
  | [], _, _ => none
  | b :: rest, base, avoid =>
      if b = false ∧ base ≠ avoid then some base
      else findFreeFrom rest (base + 1) avoid

/-- Modelled from the spec: `AllocateId` picks the lowest free id other than
`last_freed`; if `last_freed` is the only free slot it falls back to it;
otherwise the bit set grows by one and the new slot is used.  Returns the
id and the updated allocator. -/
def allocateId (a : IdAlloc) : Nat × IdAlloc :=
  match findFreeFrom a.bits 0 a.lastFreed with
  | some i => (i, { a with bits := a.bits.set i true })
  | none =>
      if a.bits.get? a.lastFreed = some false then
        (a.lastFreed, { a with bits := a.bits.set a.lastFreed true })
      else
        (a.bits.length, { a with bits := a.bits ++ [true] })

/-- Modelled from the spec: freeing an id clears its bit and records it as
the last-freed hint (done when a coroutine is destroyed / removed). -/
def freeId (a : IdAlloc) (id : Nat) : IdAlloc :=
  { bits := a.bits.set id false, lastFreed := id }

/-! ## Theorems: the Generator / Call protocol -/

/-- One `Call` on a generator with at least one pending yield returns that
value and leaves the tail pending, with `result_` unbound again. -/
theorem Call_cons {T : Type} (v : T) (rest : List T) (b c : Bool) (d : T) :
    Call { pending := v :: rest, result_ := b, caller_ := c } d
      = (v, { pending := rest, result_ := false, caller_ := true }) := by
  simp [Call, callDuring, runToNextYield, yieldValue]

/-- `callResults` on a generator reproduces its pending list, whatever the
initial pointer flags are. -/
theorem callResults_pending {T : Type} (vs : List T) (d : T) :
    ∀ b c : Bool,
      callResults { pending := vs, result_ := b, caller_ := c } d vs.length = vs := by
  induction vs with
  | nil => intro b c; rfl
  | cons v rest ih =>
      intro b c
      simp only [List.length_cons, callResults, Call_cons]
      exact congrArg (v :: ·) (ih false true)

/-- C1: for every sequence of values `v_1, ..., v_n` that a generator passes
to `YieldValue`, the i-th `Call` on that generator returns exactly `v_i`, in
order, the copy having been made through the bound `result_` slot. -/
theorem generator_round_trip {T : Type} (vs : List T) (d : T) :
    callResults (initGen vs) d vs.length = vs :=
  callResults_pending vs d false false

/-- C3: if a generator's body returns without ever executing `YieldValue`
(no pending yields), the driving `Call` returns the default-constructed
value `d` of the caller-frame local `T result;`. -/
theorem call_returns_default_when_no_yield {T : Type} (g : GenCore T) (d : T)
    (h : g.pending = []) : (Call g d).1 = d := by
  simp [Call, callDuring, runToNextYield, h]

theorem call_returns_default_when_no_yield_witness :
    (initGen ([] : List Nat)).pending = [] ∧
      (Call (initGen ([] : List Nat)) 42).1 = 42 :=
  ⟨rfl, call_returns_default_when_no_yield (initGen []) 42 rfl⟩

/-- C4: the result slot is bound exactly for the duration of one `Call`:
`Call` binds `result_` (to the caller-frame local) before transferring
control, the transfer happens with the slot bound, `result_` is null again
when `Call` returns, and a `YieldValue` after the `Call` window writes
nothing through the slot. -/
theorem result_slot_bound_only_during_call {T : Type} (g : GenCore T)
    (d slot v : T) :
    (callDuring g).result_ = true ∧
      (Call g d).2.result_ = false ∧
      (yieldValue (Call g d).2 slot v).1 = slot := by
  have h2 : (Call g d).2.result_ = false := rfl
  refine ⟨rfl, h2, ?_⟩
  simp [yieldValue, h2]

/-- C9: calling `YieldValue` on a generator whose `result_` is null is safe:
the null check skips the copy, the caller-frame cell is untouched, and the
generator still yields control. -/
theorem yieldValue_null_slot_safe {T : Type} (g : GenCore T) (slot v : T)
    (h : g.result_ = false) : yieldValue g slot v = (slot, true) := by
  simp [yieldValue, h]

theorem yieldValue_null_slot_safe_witness :
    (initGen [(1 : Nat)]).result_ = false ∧
      yieldValue (initGen [(1 : Nat)]) 0 5 = (0, true) :=
  ⟨rfl, yieldValue_null_slot_safe (initGen [(1 : Nat)]) 0 5 rfl⟩

/-! ## Theorems: sleeping functions -/

/-- C6: `Nanosleep(ns)` is a `Wait` with an empty user-fd set and timeout
`ns`; `Millisleep(m)` is `Nanosleep(m * 1000000)` and `Sleep(s)` is
`Nanosleep(s * 1000000000)` whenever the `uint64_t` products do not wrap. -/
theorem sleep_functions_reduce_to_wait (ns m s : Nat)
    (hm : m * 1000000 < 2 ^ 64) (hs : s * 1000000000 < 2 ^ 64) :
    nanosleepRequest ns = waitRequest [] ns ∧
      millisleepRequest m = nanosleepRequest (m * 1000000) ∧
      sleepRequest s = nanosleepRequest (s * 1000000000) := by
  refine ⟨rfl, ?_, ?_⟩
  · show nanosleepRequest (m * 1000000 % 2 ^ 64) = nanosleepRequest (m * 1000000)
    rw [Nat.mod_eq_of_lt hm]
  · show nanosleepRequest (s * 1000000000 % 2 ^ 64) = nanosleepRequest (s * 1000000000)
    rw [Nat.mod_eq_of_lt hs]

theorem sleep_functions_reduce_to_wait_witness :
    2 * 1000000 < 2 ^ 64 ∧ 3 * 1000000000 < 2 ^ 64 ∧
      (nanosleepRequest 1 = waitRequest [] 1 ∧
        millisleepRequest 2 = nanosleepRequest (2 * 1000000) ∧
        sleepRequest 3 = nanosleepRequest (3 * 1000000000)) :=
  ⟨by decide, by decide,
    sleep_functions_reduce_to_wait 1 2 3 (by decide) (by decide)⟩

/-! ## Theorems: Wait return values -/

/-- C2: for every `Wait` invocation, the returned integer is the fd that
triggered resumption when an awaited user fd became ready, and is the
sentinel -1 exactly when the wait ended by its timer (timeout).  Real fds
are non-negative and the timer fd is freshly created, hence distinct from
the user fds. -/
theorem wait_returns_fd_or_timeout_sentinel (fds : List Int) (t : Nat)
    (fresh trig : Int) (hfds : ∀ f ∈ fds, 0 ≤ f) (hfresh : fresh ∉ fds)
    (htrig : trig ∈ fds ∨ (0 < t ∧ trig = fresh)) :
    (Wait fds t fresh trig = -1 ↔ (0 < t ∧ trig = fresh)) ∧
      (trig ∈ fds → Wait fds t fresh trig = trig) := by
  rcases htrig with hmem | ⟨ht, rfl⟩
  · have hres : Wait fds t fresh trig
        = if trig = (if 0 < t then fresh else -1) then -1 else trig := rfl
    have h0 : (0 : Int) ≤ trig := hfds trig hmem
    have hne : trig ≠ fresh := fun h => hfresh (h ▸ hmem)
    have hne1 : trig ≠ -1 := by omega
    have hval : Wait fds t fresh trig = trig := by
      rw [hres]
      by_cases hlt : 0 < t
      · rw [if_pos hlt, if_neg hne]
      · rw [if_neg hlt, if_neg hne1]
    constructor
    · rw [hval]
      constructor
      · intro h; exact absurd h hne1
      · rintro ⟨hlt, rfl⟩; exact absurd hmem hfresh
    · intro _; exact hval
  · have hval : Wait fds t trig trig = -1 := by
      show (if trig = (if 0 < t then trig else -1) then -1 else trig) = -1
      rw [if_pos ht, if_pos rfl]
    constructor
    · rw [hval]; exact ⟨fun _ => ⟨ht, rfl⟩, fun _ => rfl⟩
    · intro hmem; exact absurd hmem hfresh

theorem wait_returns_fd_or_timeout_sentinel_witness :
    (∀ f ∈ [(3 : Int), 5], 0 ≤ f) ∧ (9 : Int) ∉ [(3 : Int), 5] ∧
      Wait [(3 : Int), 5] 7 9 9 = -1 :=
  ⟨by decide, by decide,
    (wait_returns_fd_or_timeout_sentinel [(3 : Int), 5] 7 9 9 (by decide)
      (by decide) (Or.inr ⟨by decide, rfl⟩)).1.mpr ⟨by decide, rfl⟩⟩

/-! ## Theorems: construction defaults and last-tick -/

/-- C8: every `Generator` is constructed with `autostart` forced to `false`
(its state after construction is `kCoNew`: it runs only when first driven),
whereas a plain `Coroutine` defaults to `autostart = true` with a default
stack size of 32 KiB. -/
theorem generator_autostart_false_coroutine_defaults (ss : Nat) :
    (generatorNew ss).autostart = false ∧
      (generatorNew ss).state = CoState.kCoNew ∧
      generatorDefault.autostart = false ∧
      coroutineDefault.autostart = true ∧
      coroutineDefault.stack_size = 32 * 1024 :=
  ⟨rfl, rfl, rfl, rfl, rfl⟩

/-- Operations other than `Resume` never write `last_tick_`. -/
theorem applyOp_last_tick {c : CoObj} {op : CoOp} (h : op.isResume = false) :
    (applyOp c op).last_tick = c.last_tick := by
  cases op with
  | resumeOp t => simp [CoOp.isResume] at h
  | startOp => simp only [applyOp]; split <;> rfl
  | yieldOp => rfl
  | waitOp => rfl
  | exitOp => rfl
  | setNameOp => rfl

theorem applyOps_last_tick (ops : List CoOp) :
    ∀ c : CoObj, (∀ op ∈ ops, op.isResume = false) →
      (applyOps c ops).last_tick = c.last_tick := by
  induction ops with
  | nil => intro c _; rfl
  | cons op rest ih =>
      intro c h
      have h1 : op.isResume = false := h op (List.mem_cons_self op rest)
      have h2 : ∀ o ∈ rest, o.isResume = false := fun o ho =>
        h o (List.mem_cons_of_mem op ho)
      calc (applyOps c (op :: rest)).last_tick
          = (applyOps (applyOp c op) rest).last_tick := rfl
        _ = (applyOp c op).last_tick := ih (applyOp c op) h2
        _ = c.last_tick := applyOp_last_tick h1

/-- C10: a coroutine that has never been resumed has `LastTick() = 0`:
`last_tick_` is zero-initialized at construction and no operation other
than `Resume` writes it. -/
theorem lastTick_zero_until_first_resume (a : Bool) (ss : Nat)
    (ops : List CoOp) (h : ∀ op ∈ ops, op.isResume = false) :
    LastTick (construct a ss) = 0 ∧
      LastTick (applyOps (construct a ss) ops) = 0 := by
  refine ⟨rfl, ?_⟩
  show (applyOps (construct a ss) ops).last_tick = 0
  rw [applyOps_last_tick ops (construct a ss) h]
  rfl

theorem lastTick_zero_until_first_resume_witness :
    (∀ op ∈ [CoOp.startOp, CoOp.yieldOp, CoOp.waitOp], op.isResume = false) ∧
      (LastTick (construct true kCoDefaultStackSize) = 0 ∧
        LastTick (applyOps (construct true kCoDefaultStackSize)
          [CoOp.startOp, CoOp.yieldOp, CoOp.waitOp]) = 0) :=
  ⟨by decide,
    lastTick_zero_until_first_resume true kCoDefaultStackSize
      [CoOp.startOp, CoOp.yieldOp, CoOp.waitOp] (by decide)⟩

/-! ## Theorems: mutual exclusion of `Running` -/

theorem mem_of_getq {α : Type} :
    ∀ (s : List α) (i : Nat) (c : α), s.get? i = some c → c ∈ s := by
  intro s
  induction s with
  | nil => intro i c h; cases h
  | cons a rest ih =>
      intro i c h
      cases i with
      | zero =>
          cases h
          exact List.mem_cons_self a rest
      | succ j => exact List.mem_cons_of_mem a (ih j c h)

/-- Replacing the entry at a present index exchanges its contribution to
`runningCount` for the new entry's contribution. -/
theorem runningCount_set :
    ∀ (s : SchedState) (i : Nat) (c v : CoState), s.get? i = some c →
      runningCount (s.set i v) + (if c = CoState.kCoRunning then 1 else 0)
        = runningCount s + (if v = CoState.kCoRunning then 1 else 0) := by
  intro s
  induction s with
  | nil => intro i c v h; cases h
  | cons a rest ih =>
      intro i c v h
      cases i with
      | zero =>
          cases h
          show runningCount (v :: rest) + _ = _
          simp only [runningCount]
          omega
      | succ j =>
          have h2 := ih j c v h
          show runningCount (a :: rest.set j v) + _ = _
          simp only [runningCount]
          omega

theorem runningCount_eq_zero :
    ∀ s : SchedState, (∀ c ∈ s, c ≠ CoState.kCoRunning) → runningCount s = 0 := by
  intro s
  induction s with
  | nil => intro _; rfl
  | cons a rest ih =>
      intro h
      have ha : a ≠ CoState.kCoRunning := h a (List.mem_cons_self a rest)
      have hrest := ih fun c hc => h c (List.mem_cons_of_mem a hc)
      simp only [runningCount, if_neg ha, hrest]

theorem runningCount_replicate_new (n : Nat) :
    runningCount (List.replicate n CoState.kCoNew) = 0 := by
  induction n with
  | zero => rfl
  | succ m ih =>
      show runningCount (CoState.kCoNew :: List.replicate m CoState.kCoNew) = 0
      simp only [runningCount, ih]
      decide

/-- Every scheduler-visible transition preserves the bound. -/
theorem schedStep_preserves_mutex {s s2 : SchedState} (h : SchedStep s s2)
    (inv : runningCount s ≤ 1) : runningCount s2 ≤ 1 := by
  cases h with
  | start i hi =>
      have := runningCount_set s i CoState.kCoNew CoState.kCoReady hi
      simp at this; omega
  | wakeYielded i hi =>
      have := runningCount_set s i CoState.kCoYielded CoState.kCoReady hi
      simp at this; omega
  | wakeWaiting i hi =>
      have := runningCount_set s i CoState.kCoWaiting CoState.kCoReady hi
      simp at this; omega
  | resume i hi hnone =>
      have hz : runningCount s = 0 := runningCount_eq_zero s hnone
      have := runningCount_set s i CoState.kCoReady CoState.kCoRunning hi
      simp at this; omega
  | yieldStep i hi =>
      have := runningCount_set s i CoState.kCoRunning CoState.kCoYielded hi
      simp at this; omega
  | waitStep i hi =>
      have := runningCount_set s i CoState.kCoRunning CoState.kCoWaiting hi
      simp at this; omega
  | exitStep i hi =>
      have := runningCount_set s i CoState.kCoRunning CoState.kCoDead hi
      simp at this; omega
  | callTransfer i j st hij hi hj hstR hstD =>
      have h1 := runningCount_set s i CoState.kCoRunning CoState.kCoWaiting hi
      have hj2 : (s.set i CoState.kCoWaiting).get? j = some st := by
        rw [List.get?_set_ne _ _ hij]; exact hj
      have h2 := runningCount_set (s.set i CoState.kCoWaiting) j st
        CoState.kCoRunning hj2
      have hstR' : (if st = CoState.kCoRunning then 1 else 0) = 0 :=
        if_neg hstR
      simp only [hstR'] at h2
      simp at h1 h2
      omega
  | yieldValueTransfer i j st hij hj hi hstR =>
      have h1 := runningCount_set s j CoState.kCoRunning CoState.kCoYielded hj
      have hi2 : (s.set j CoState.kCoYielded).get? i = some st := by
        rw [List.get?_set_ne _ _ (fun h => hij h.symm)]; exact hi
      have h2 := runningCount_set (s.set j CoState.kCoYielded) i st
        CoState.kCoRunning hi2
      have hstR' : (if st = CoState.kCoRunning then 1 else 0) = 0 :=
        if_neg hstR
      simp only [hstR'] at h2
      simp at h1 h2
      omega

/-- C5: in every reachable state of a scheduler and its registered
coroutines, at most one coroutine is in state `kCoRunning`; the transition
system enters `Running` only through a scheduler resume or a direct
`Call`/`YieldValue` transfer and leaves it at every suspension point. -/
theorem at_most_one_running (s : SchedState) (h : SchedReachable s) :
    runningCount s ≤ 1 := by
  induction h with
  | init n => rw [runningCount_replicate_new]; omega
  | step _ hstep ih => exact schedStep_preserves_mutex hstep ih

theorem at_most_one_running_witness :
    runningCount [CoState.kCoRunning, CoState.kCoNew] ≤ 1 :=
  at_most_one_running [CoState.kCoRunning, CoState.kCoNew]
    (SchedReachable.step
      (SchedReachable.step (SchedReachable.init 2)
        (SchedStep.start [CoState.kCoNew, CoState.kCoNew] 0 rfl))
      (SchedStep.resume [CoState.kCoReady, CoState.kCoNew] 0 rfl (by decide)))

/-! ## Theorems: the id allocator -/

theorem findFreeFrom_ne_avoid :
    ∀ (bits : List Bool) (base avoid i : Nat),
      findFreeFrom bits base avoid = some i → i ≠ avoid := by
  intro bits
  induction bits with
  | nil => intro base avoid i h; cases h
  | cons b rest ih =>
      intro base avoid i h
      by_cases hc : b = false ∧ base ≠ avoid
      · simp only [findFreeFrom, if_pos hc] at h
        cases h
        exact hc.2
      · simp only [findFreeFrom, if_neg hc] at h
        exact ih (base + 1) avoid i h

theorem findFreeFrom_none :
    ∀ (bits : List Bool) (base avoid : Nat),
      findFreeFrom bits base avoid = none →
      ∀ j, bits.get? j = some false → base + j = avoid := by
  intro bits
  induction bits with
  | nil => intro base avoid _ j hj; cases hj
  | cons b rest ih =>
      intro base avoid h j hj
      by_cases hc : b = false ∧ base ≠ avoid
      · simp only [findFreeFrom, if_pos hc] at h
        exact Option.noConfusion h
      · simp only [findFreeFrom, if_neg hc] at h
        cases j with
        | zero =>
            injection hj with hb
            subst hb
            have hba : base = avoid := by
              by_contra hne
              exact hc ⟨rfl, hne⟩
            omega
        | succ k =>
            have := ih (base + 1) avoid h k hj
            omega

theorem findFreeFrom_none_of :
    ∀ (bits : List Bool) (base avoid : Nat),
      (∀ j, bits.get? j = some false → base + j = avoid) →
      findFreeFrom bits base avoid = none := by
  intro bits
  induction bits with
  | nil => intro base avoid _; rfl
  | cons b rest ih =>
      intro base avoid h
      have hcond : ¬(b = false ∧ base ≠ avoid) := by
        rintro ⟨hb, hne⟩
        subst hb
        have := h 0 rfl
        omega
      simp only [findFreeFrom, if_neg hcond]
      apply ih
      intro j hj
      have := h (j + 1) hj
      omega

theorem allocateId_of_found {a : IdAlloc} {i : Nat}
    (h : findFreeFrom a.bits 0 a.lastFreed = some i) : (allocateId a).1 = i := by
  simp [allocateId, h]

theorem allocateId_fallback {a : IdAlloc}
    (h : findFreeFrom a.bits 0 a.lastFreed = none)
    (h2 : a.bits.get? a.lastFreed = some false) :
    (allocateId a).1 = a.lastFreed := by
  rw [List.get?_eq_getElem?] at h2
  simp [allocateId, h, h2]

/-- C7: after id `K` is freed, the next allocation does not return `K`
unless `K` is the only free id: allocation picks the lowest free id other
than the last-freed one, and falls back to the last-freed id exactly when
no other id is free. -/
theorem allocate_avoids_last_freed (a : IdAlloc) (K : Nat) :
    ((∃ j, j ≠ K ∧ (freeId a K).bits.get? j = some false) →
      (allocateId (freeId a K)).1 ≠ K) ∧
    ((freeId a K).bits.get? K = some false →
      (∀ j, (freeId a K).bits.get? j = some false → j = K) →
      (allocateId (freeId a K)).1 = K) := by
  have hlf : (freeId a K).lastFreed = K := rfl
  constructor
  · rintro ⟨j, hjK, hj⟩
    cases hf : findFreeFrom (freeId a K).bits 0 (freeId a K).lastFreed with
    | none =>
        exfalso
        have hjk := findFreeFrom_none _ 0 _ hf j hj
        rw [hlf] at hjk
        omega
    | some i =>
        have hi : i ≠ K := by
          have hne := findFreeFrom_ne_avoid _ 0 _ i hf
          rw [hlf] at hne
          exact hne
        rw [allocateId_of_found hf]
        exact hi
  · intro hK hall
    have hnone : findFreeFrom (freeId a K).bits 0 (freeId a K).lastFreed = none := by
      apply findFreeFrom_none_of
      intro j hj
      have := hall j hj
      rw [hlf]
      omega
    have := allocateId_fallback hnone hK
    rw [hlf] at this
    exact this

theorem allocate_avoids_last_freed_witness :
    (∃ j, j ≠ 1 ∧
        (freeId { bits := [true, true, false], lastFreed := lastFreedSentinel }
          1).bits.get? j = some false) ∧
      (allocateId
        (freeId { bits := [true, true, false], lastFreed := lastFreedSentinel }
          1)).1 ≠ 1 :=
  ⟨⟨2, by decide, rfl⟩,
    (allocate_avoids_last_freed
      { bits := [true, true, false], lastFreed := lastFreedSentinel } 1).1
      ⟨2, by decide, rfl⟩⟩

end Co

